import Mathlib

/-!
# Verification of the carbon-intensity batch pipeline

A shallow embedding of the core logic of the three pipeline scripts
(`tp1_extraccion.py`, `tp2_procesamiento.py`) of the
`tp-carbon-intensity-imoberdoff` repository, together with theorems about
the embedded functions.

Modelling conventions:
- pandas DataFrames are modelled as Lean lists of rows (row order is the
  DataFrame row order);
- nullable numbers (NaN after `pd.to_numeric(..., errors="coerce")`) are
  `Option ℚ`, with `none` standing for NaN/null;
- timestamps are integers counting minutes (so `timedelta(minutes=30)` is
  `30` and `timedelta(days=7)` is `10080`); a possibly-NaT timestamp value
  is `Option ℤ` with `none` standing for pandas `NaT`;
- `time.sleep(2)` is modelled by accumulating the number of seconds slept.
-/

namespace CarbonIntensity

/-! ## pandas primitives used by the pipeline -/

/-- Worker for `dropDuplicatesBy`: `seen` is the list of keys already
emitted; a row whose key was already seen is dropped. -/
def dropDupAux {α : Type} {κ : Type} [DecidableEq κ] (key : α → κ)
    (seen : List κ) : List α → List α
  | [] => []
  | x :: xs =>
    if key x ∈ seen then dropDupAux key seen xs
    else x :: dropDupAux key (key x :: seen) xs

/-- `DataFrame.drop_duplicates(subset=key_cols)` with the default
`keep="first"`: keep the first row carrying each key, preserving row
order.  The key of a row is extracted by `key`. -/
def dropDuplicatesBy {α : Type} {κ : Type} [DecidableEq κ] (key : α → κ)
    (l : List α) : List α :=
  dropDupAux key [] l

/-! ## tp1_extraccion.py — upsert into the bronze intensity table -/

/-- One bronze intensity row.  The natural key `("from", "to")` is
abstracted into the single field `key`; every other column of the row
(the intensity payload, `date_part`, `ingestion_ts`, ...) is abstracted
into `payload`, which is enough to tell an existing row from a freshly
fetched row for the same key. -/
structure Row where
  key : String
  payload : ℤ
deriving DecidableEq, Repr

/-- `upsert_delta(df_new, delta_path, key_cols, partition_cols)`.
The Delta table at `delta_path` is modelled by its content:
`none` when `is_delta_table` is false (the table does not exist yet),
`some df_old` otherwise.  The function returns the content written back:
if the table does not exist it writes `df_new`; otherwise it concatenates
the existing rows before the new ones and drops duplicate keys keeping
the first occurrence. -/
def upsert_delta (df_new : List Row) (table : Option (List Row)) : List Row :=
  match table with
  | none => df_new
  | some df_old => dropDuplicatesBy Row.key (df_old ++ df_new)

/-! ### Lemmas about `dropDuplicatesBy` -/

theorem dropDupAux_drop_seen {α κ : Type} [DecidableEq κ] (key : α → κ) :
    ∀ (l : List α) (seen : List κ), (∀ b ∈ l, key b ∈ seen) →
      dropDupAux key seen l = [] := by
  intro l
  induction l with
  | nil => intro _ _; rfl
  | cons x xs ih =>
    intro seen h
    rw [dropDupAux, if_pos (h x (List.mem_cons_self x xs))]
    exact ih seen fun b hb => h b (List.mem_cons_of_mem x hb)

/-- Processing `xs ++ extra` from a `seen` set disjoint from the keys of
`xs`: when `xs` has pairwise distinct keys and every row of `extra`
carries a key already in `seen` or occurring in `xs`, the result is
exactly `xs`. -/
theorem dropDupAux_append_absorb {α κ : Type} [DecidableEq κ] (key : α → κ) :
    ∀ (xs : List α) (seen : List κ) (extra : List α),
      (∀ a ∈ xs, key a ∉ seen) → (xs.map key).Nodup →
      (∀ b ∈ extra, key b ∈ seen ∨ key b ∈ xs.map key) →
      dropDupAux key seen (xs ++ extra) = xs := by
  intro xs
  induction xs with
  | nil =>
    intro seen extra _ _ hextra
    apply dropDupAux_drop_seen
    intro b hb
    rcases hextra b hb with h | h
    · exact h
    · exact absurd h (List.not_mem_nil _)
  | cons y ys ih =>
    intro seen extra hdisj hnodup hextra
    rw [List.map_cons, List.nodup_cons] at hnodup
    obtain ⟨hy, hys⟩ := hnodup
    rw [List.cons_append, dropDupAux,
      if_neg (hdisj y (List.mem_cons_self y ys))]
    congr 1
    apply ih (key y :: seen) extra
    · intro a ha
      rw [List.mem_cons]
      rintro (hk | hk)
      · exact hy (hk ▸ List.mem_map_of_mem key ha)
      · exact hdisj a (List.mem_cons_of_mem y ha) hk
    · exact hys
    · intro b hb
      rcases hextra b hb with h | h
      · exact Or.inl (List.mem_cons_of_mem _ h)
      · rw [List.map_cons, List.mem_cons] at h
        rcases h with h | h
        · exact Or.inl (h ▸ List.mem_cons_self _ _)
        · exact Or.inr h

theorem dropDuplicatesBy_eq_self {α κ : Type} [DecidableEq κ] (key : α → κ)
    (l : List α) (h : (l.map key).Nodup) : dropDuplicatesBy key l = l := by
  have := dropDupAux_append_absorb key l [] []
    (fun a _ => List.not_mem_nil _) h (fun b hb => absurd hb (List.not_mem_nil _))
  simpa [dropDuplicatesBy] using this

theorem dropDuplicatesBy_append_self {α κ : Type} [DecidableEq κ]
    (key : α → κ) (l : List α) (h : (l.map key).Nodup) :
    dropDuplicatesBy key (l ++ l) = l := by
  exact dropDupAux_append_absorb key l [] l
    (fun a _ => List.not_mem_nil _) h
    (fun b hb => Or.inr (List.mem_map_of_mem key hb))

/-! ## tp1_extraccion.py — incremental windowing -/

/-- A pandas timestamp value that may be `NaT` (`none`).  Valid timestamps
count minutes, so that `timedelta(minutes=30)` is `30` and
`timedelta(days=7)` is `7 * 1440 = 10080`. -/
abbrev Timestamp : Type := Option ℤ

/-- The bronze intensity Delta table as seen by `get_last_from_timestamp`:
whether the DataFrame has a `from` column, and the rows' `from` values
after `pd.to_datetime(df["from"], utc=True, errors="coerce")` — a value
that failed to parse is coerced to `NaT` (`none`). -/
structure BronzeIntensity where
  hasFromCol : Bool
  fromCol : List Timestamp

/-- `Series.max()` with pandas' default `skipna=True`: the maximum of the
non-`NaT` values, and `NaT` when every value is `NaT` (or the series is
empty). -/
def seriesMax (xs : List Timestamp) : Timestamp :=
  xs.foldl
    (fun acc x =>
      match acc, x with
      | none, x => x
      | some a, none => some a
      | some a, some b => some (max a b))
    none

/-- `get_last_from_timestamp(delta_path)`.  The table location is `none`
when `is_delta_table` is false.  Returns Python `None` (`none`) when the
table does not exist, has no `from` column, or is empty; otherwise the
maximum of the coerced `from` values (which is `NaT`, i.e. `some none`,
when every value fails to parse). -/
def get_last_from_timestamp (table : Option BronzeIntensity) :
    Option Timestamp :=
  match table with
  | none => none
  | some tb =>
    if ¬ tb.hasFromCol ∨ tb.fromCol = [] then none
    else some (seriesMax tb.fromCol)

/-- `t + timedelta(minutes=m)`: addition propagates `NaT`. -/
def tsAdd (t : Timestamp) (m : ℤ) : Timestamp :=
  Option.map (· + m) t

/-- `t >= now` on pandas timestamps: any comparison against `NaT` is
`False`. -/
def tsGe (t : Timestamp) (now : ℤ) : Bool :=
  match t with
  | none => false
  | some a => now ≤ a

/-- `t.isoformat()`: `NaT` renders as the string `"NaT"`; a valid
timestamp renders as (a model of) its ISO form. -/
def tsIso (t : Timestamp) : String :=
  match t with
  | none => "NaT"
  | some a => toString a

/-- `compute_incremental_window(delta_path)`, with the current time `now`
passed explicitly (the Python code reads `datetime.now(timezone.utc)`).
Bootstrap window is the last 7 days; otherwise the window starts 30
minutes after the stored maximum `from`; a start not strictly before
`now` yields no window (`None`). -/
def compute_incremental_window (now : ℤ) (table : Option BronzeIntensity) :
    Option (String × String) :=
  let last_from := get_last_from_timestamp table
  let from_dt : Timestamp :=
    match last_from with
    | none => some (now - 7 * 1440)
    | some t => tsAdd t 30
  if tsGe from_dt now then none
  else some (tsIso from_dt, tsIso (some now))

/-! ## Claim theorems: C1, C2, C3, C10 -/

/-- C1: upserting new rows with keys `{k2, k3}` into an existing table
with keys `{k1, k2}` yields exactly the keys `{k1, k2, k3}`, and the
retained row for the colliding key `k2` is the pre-existing row (payload
`p2`), not the newly fetched one (payload `p2n`): first-occurrence-wins
after concatenating existing before new. -/
theorem upsert_overlap_first_wins (k1 k2 k3 : String) (p1 p2 p2n p3 : ℤ)
    (h12 : k1 ≠ k2) (h13 : k1 ≠ k3) (h23 : k2 ≠ k3) :
    upsert_delta [⟨k2, p2n⟩, ⟨k3, p3⟩] (some [⟨k1, p1⟩, ⟨k2, p2⟩]) =
      [⟨k1, p1⟩, ⟨k2, p2⟩, ⟨k3, p3⟩] ∧
    (upsert_delta [⟨k2, p2n⟩, ⟨k3, p3⟩] (some [⟨k1, p1⟩, ⟨k2, p2⟩])).map
      Row.key = [k1, k2, k3] ∧
    (p2n ≠ p2 →
      Row.mk k2 p2n ∉
        upsert_delta [⟨k2, p2n⟩, ⟨k3, p3⟩] (some [⟨k1, p1⟩, ⟨k2, p2⟩])) := by
  have hmain :
      upsert_delta [⟨k2, p2n⟩, ⟨k3, p3⟩] (some [⟨k1, p1⟩, ⟨k2, p2⟩]) =
        [⟨k1, p1⟩, ⟨k2, p2⟩, ⟨k3, p3⟩] := by
    show dropDupAux Row.key [] [⟨k1, p1⟩, ⟨k2, p2⟩, ⟨k2, p2n⟩, ⟨k3, p3⟩] = _
    rw [dropDupAux, if_neg (List.not_mem_nil _)]
    rw [dropDupAux, if_neg (by simp [h12.symm])]
    rw [dropDupAux, if_pos (by simp)]
    rw [dropDupAux, if_neg (by simp [h13.symm, h23.symm])]
    rw [dropDupAux]
  refine ⟨hmain, by rw [hmain]; rfl, ?_⟩
  intro hneq
  rw [hmain]
  intro hmem
  rcases List.mem_cons.mp hmem with h | hmem
  · exact h12.symm (congrArg Row.key h)
  rcases List.mem_cons.mp hmem with h | hmem
  · exact hneq (congrArg Row.payload h)
  rcases List.mem_cons.mp hmem with h | hmem
  · exact h23 (congrArg Row.key h)
  · exact (List.not_mem_nil _ hmem)

/-- Witness for C1 at concrete keys and payloads. -/
theorem upsert_overlap_first_wins_witness :
    upsert_delta [⟨"k2", 20⟩, ⟨"k3", 3⟩] (some [⟨"k1", 1⟩, ⟨"k2", 2⟩]) =
      [⟨"k1", 1⟩, ⟨"k2", 2⟩, ⟨"k3", 3⟩] ∧
    Row.mk "k2" 20 ∉
      upsert_delta [⟨"k2", 20⟩, ⟨"k3", 3⟩] (some [⟨"k1", 1⟩, ⟨"k2", 2⟩]) :=
  ⟨(upsert_overlap_first_wins "k1" "k2" "k3" 1 2 20 3 (by decide) (by decide)
      (by decide)).1,
   (upsert_overlap_first_wins "k1" "k2" "k3" 1 2 20 3 (by decide) (by decide)
      (by decide)).2.2 (by decide)⟩

/-- C2: upsert is idempotent on replay — upserting a record set `R` with
pairwise-unique keys into a table whose content is already exactly `R`
leaves the table equal to `R`; no rows are duplicated. -/
theorem upsert_idempotent_on_replay (R : List Row)
    (h : (R.map Row.key).Nodup) : upsert_delta R (some R) = R := by
  show dropDuplicatesBy Row.key (R ++ R) = R
  exact dropDuplicatesBy_append_self Row.key R h

/-- Witness for C2 at a concrete two-row table. -/
theorem upsert_idempotent_on_replay_witness :
    upsert_delta [⟨"a", 1⟩, ⟨"b", 2⟩] (some [⟨"a", 1⟩, ⟨"b", 2⟩]) =
      [⟨"a", 1⟩, ⟨"b", 2⟩] :=
  upsert_idempotent_on_replay [⟨"a", 1⟩, ⟨"b", 2⟩] (by decide)

/-- C3: the windowing resolver returns the 7-day bootstrap window
`[now - 7 days, now]` when no stored maximum `from` exists; when the
stored maximum is a valid timestamp `T` it returns the window
`[T + 30 minutes, now]` when that start is strictly before `now`, and no
window (`None`) when the start is at or after `now`. -/
theorem compute_window_resolution (now : ℤ) (table : Option BronzeIntensity) :
    (get_last_from_timestamp table = none →
      compute_incremental_window now table =
        some (tsIso (some (now - 7 * 1440)), tsIso (some now))) ∧
    (∀ T : ℤ, get_last_from_timestamp table = some (some T) →
      compute_incremental_window now table =
        if T + 30 < now then some (tsIso (some (T + 30)), tsIso (some now))
        else none) ∧
    get_last_from_timestamp none = none ∧
    (∀ tb : BronzeIntensity, ¬ tb.hasFromCol = true ∨ tb.fromCol = [] →
      get_last_from_timestamp (some tb) = none) := by
  refine ⟨?_, ?_, rfl, ?_⟩
  · intro hnone
    unfold compute_incremental_window
    rw [hnone]
    simp only [tsGe]
    rw [if_neg (by simp only [decide_eq_true_eq]; omega)]
  · intro T hsome
    unfold compute_incremental_window
    rw [hsome]
    simp only [tsAdd, Option.map, tsGe]
    by_cases hlt : T + 30 < now
    · rw [if_pos hlt, if_neg (by simp only [decide_eq_true_eq]; omega)]
    · rw [if_neg hlt, if_pos (by simp only [decide_eq_true_eq]; omega)]
  · intro tb hc
    show (if ¬ tb.hasFromCol = true ∨ tb.fromCol = [] then none
      else some (seriesMax tb.fromCol)) = none
    rw [if_pos hc]

/-- Witness for C3: bootstrap window on a missing table, an incremental
window for a stored maximum of 100 with `now = 200`, and no stored
maximum on a table without a `from` column. -/
theorem compute_window_resolution_witness :
    compute_incremental_window 0 none =
      some (tsIso (some (0 - 7 * 1440)), tsIso (some 0)) ∧
    compute_incremental_window 200 (some ⟨true, [some 100]⟩) =
      some (tsIso (some 130), tsIso (some 200)) ∧
    get_last_from_timestamp (some ⟨false, [some 5]⟩) = none := by
  refine ⟨(compute_window_resolution 0 none).1 rfl, ?_,
    (compute_window_resolution 0 (some ⟨false, [some 5]⟩)).2.2.2
      ⟨false, [some 5]⟩ (Or.inl (by decide))⟩
  have h := (compute_window_resolution 200 (some ⟨true, [some 100]⟩)).2.1 100
    rfl
  rw [if_pos (by omega)] at h
  rw [h]
  norm_num

/-- C10: on a table whose `from` column is non-empty but whose values all
fail to parse (all coerced to `NaT`), `get_last_from_timestamp` returns
`NaT` (`some none`) rather than Python `None`, and
`compute_incremental_window` neither bootstraps nor returns `None`: it
returns a window whose start serializes as `"NaT"`. -/
theorem all_nat_from_column_window (now : ℤ) :
    get_last_from_timestamp (some ⟨true, [none, none]⟩) = some none ∧
    compute_incremental_window now (some ⟨true, [none, none]⟩) =
      some ("NaT", tsIso (some now)) :=
  ⟨rfl, rfl⟩

/-! ## tp2_procesamiento.py — silver intensity detail -/

/-- One bronze intensity row as read by `transform_intensity`:
`from`/`to` after `pd.to_datetime(..., errors="coerce")` and the two
nullable columns `intensity.actual` / `intensity.forecast` after
`pd.to_numeric(..., errors="coerce")`. -/
structure BRow where
  fromT : Timestamp
  toT : Timestamp
  intensity_actual : Option ℚ
  intensity_forecast : Option ℚ
deriving DecidableEq, Repr

/-- One silver detail row produced by `transform_intensity`.  The
calendar columns (`date`, `year`, `month`, `day`, `hour`, `weekday`) and
the `processed_ts` stamp are derived bookkeeping columns read by no
claim; `DRow` below carries the `date` column where the daily
aggregation needs it. -/
structure SRow where
  fromT : Timestamp
  toT : Timestamp
  intensity_actual : Option ℚ
  intensity_forecast : Option ℚ
  intensity_value : Option ℚ
  intensity_level : String
deriving DecidableEq, Repr

/-- `Series.fillna`: keep the value when present, fall back otherwise,
as in `df["intensity.actual"].fillna(df["intensity.forecast"])`. -/
def fillna (a b : Option ℚ) : Option ℚ :=
  match a with
  | some x => some x
  | none => b

/-- `classify_intensity(v)`, nested in `transform_intensity`. -/
def classify_intensity (v : Option ℚ) : String :=
  match v with
  | none => "unknown"
  | some x =>
    if x ≤ 100 then "low"
    else if x ≤ 200 then "moderate"
    else if x ≤ 300 then "high"
    else "very high"

/-- `transform_intensity(df)`: short-circuits an empty frame, drops
duplicate `(from, to)` rows keeping the first, unifies `intensity_value`
as actual-with-forecast-fallback and classifies `intensity_level`. -/
def transform_intensity (df : List BRow) : List SRow :=
  if df = [] then []
  else
    (dropDuplicatesBy (fun r => (r.fromT, r.toT)) df).map fun r =>
      let v := fillna r.intensity_actual r.intensity_forecast
      ⟨r.fromT, r.toT, r.intensity_actual, r.intensity_forecast, v,
        classify_intensity v⟩

/-! ## tp2_procesamiento.py — daily aggregate -/

/-- The columns of a silver detail row that `build_intensity_daily`
reads: the `date` group key and the nullable `intensity_value`. -/
structure DRow where
  date : String
  intensity_value : Option ℚ
deriving DecidableEq, Repr

/-- One row of the daily aggregate (`year`/`month`/`processed_ts`, which
are derived from `date` and the clock, are not modelled). -/
structure DailyRow where
  date : String
  intensity_mean : Option ℚ
  intensity_max : Option ℚ
  interval_count : ℕ
deriving DecidableEq, Repr

/-- numeric `Series.mean()` applied to the non-null entries (pandas
skips NaN); NaN (`none`) on an empty/all-null series. -/
def seriesMean (xs : List ℚ) : Option ℚ :=
  match xs with
  | [] => none
  | _ => some (xs.sum / xs.length)

/-- numeric `Series.max()` applied to the non-null entries. -/
def seriesMaxQ : List ℚ → Option ℚ
  | [] => none
  | x :: xs => some (xs.foldl max x)

/-- The non-null `intensity_value` entries of the detail rows grouped
under date `d`; the pandas aggregations `mean`, `max` and `count` all
skip NaN. -/
def nonNullValuesFor (df : List DRow) (d : String) : List ℚ :=
  (df.filter fun r => r.date = d).filterMap DRow.intensity_value

/-- Insert into a list sorted by `le` (sorting helper). -/
def insertSortedBy {α : Type} (le : α → α → Bool) (x : α) :
    List α → List α
  | [] => [x]
  | y :: ys => if le x y then x :: y :: ys else y :: insertSortedBy le x ys

/-- Insertion sort by `le` (models the pandas sorts; no claim depends on
the ordering produced). -/
def sortBy {α : Type} (le : α → α → Bool) (l : List α) : List α :=
  l.foldr (insertSortedBy le) []

/-- Sort a list of strings ascending (pandas `groupby` sorts its group
keys by default). -/
def sortStrings (l : List String) : List String :=
  sortBy (fun a b => a ≤ b) l

/-- `build_intensity_daily(df)`: short-circuits an empty frame, then
groups the detail rows by `date` and aggregates
`intensity_mean`/`intensity_max`/`interval_count` as pandas
`mean`/`max`/`count` of the `intensity_value` column do — each of the
three skips null entries. -/
def build_intensity_daily (df : List DRow) : List DailyRow :=
  if df = [] then []
  else
    (sortStrings (dropDuplicatesBy id (df.map DRow.date))).map fun d =>
      ⟨d, seriesMean (nonNullValuesFor df d),
        seriesMaxQ (nonNullValuesFor df d),
        (nonNullValuesFor df d).length⟩

/-! ## Claim theorems: C4, C5, C6 -/

/-- The day of detail rows used by the spec's aggregation example:
intensity values `[80, 120, null]` on a single date. -/
def exampleDay : List DRow :=
  [⟨"2024-01-01", some 80⟩, ⟨"2024-01-01", some 120⟩, ⟨"2024-01-01", none⟩]

theorem build_daily_example_eval :
    build_intensity_daily exampleDay =
      [⟨"2024-01-01", some 100, some 120, 2⟩] := by
  have h1 : dropDuplicatesBy id (exampleDay.map DRow.date) = ["2024-01-01"] := by
    decide
  have h2 : nonNullValuesFor exampleDay "2024-01-01" = [80, 120] := by
    simp [nonNullValuesFor, exampleDay]
  unfold build_intensity_daily
  rw [if_neg (by decide), h1]
  show [(⟨"2024-01-01", seriesMean (nonNullValuesFor exampleDay "2024-01-01"),
    seriesMaxQ (nonNullValuesFor exampleDay "2024-01-01"),
    (nonNullValuesFor exampleDay "2024-01-01").length⟩ : DailyRow)] = _
  rw [h2]
  norm_num [seriesMean, seriesMaxQ]

/-- C4, counterexample: for a day with intensity values `[80, 120, null]`
the aggregate row has `interval_count = 2` — the pandas `count`
aggregation skips the null entry — while the number of detail rows
sharing the date is `3`.  The claim's `interval_count = 3` is false on
the code. -/
theorem daily_interval_count_counterexample :
    build_intensity_daily exampleDay =
      [⟨"2024-01-01", some 100, some 120, 2⟩] ∧
    (exampleDay.filter fun x => x.date = "2024-01-01").length = 3 ∧
    (2 : ℕ) ≠ 3 :=
  ⟨build_daily_example_eval, by decide, by decide⟩

theorem length_filterMap_value (l : List DRow) :
    (l.filterMap DRow.intensity_value).length =
      (l.filter fun x => x.intensity_value ≠ none).length := by
  induction l with
  | nil => rfl
  | cons x xs ih =>
    cases hv : x.intensity_value <;>
      simp [List.filterMap_cons, List.filter_cons, hv, ih]

/-- C4, amended: each output row's `interval_count` equals the number of
detail rows sharing that date whose `intensity_value` is non-null; for a
day with values `[80, 120, null]` the aggregate is
`intensity_mean = 100`, `intensity_max = 120`, `interval_count = 2`. -/
theorem daily_interval_count_amended :
    (∀ (df : List DRow) (r : DailyRow), r ∈ build_intensity_daily df →
      r.interval_count =
        ((df.filter fun x => x.date = r.date).filter
          fun x => x.intensity_value ≠ none).length) ∧
    build_intensity_daily exampleDay =
      [⟨"2024-01-01", some 100, some 120, 2⟩] := by
  constructor
  · intro df r hr
    unfold build_intensity_daily at hr
    rcases Decidable.em (df = []) with hdf | hdf
    · rw [if_pos hdf] at hr
      exact absurd hr (List.not_mem_nil _)
    · rw [if_neg hdf] at hr
      obtain ⟨d, _, rfl⟩ := List.mem_map.mp hr
      exact length_filterMap_value _
  · exact build_daily_example_eval

/-- Witness for the amended C4 at the example day. -/
theorem daily_interval_count_amended_witness :
    (DailyRow.mk "2024-01-01" (some 100) (some 120) 2).interval_count =
      ((exampleDay.filter fun x =>
          x.date = (DailyRow.mk "2024-01-01" (some 100) (some 120) 2).date).filter
        fun x => x.intensity_value ≠ none).length := by
  have h := daily_interval_count_amended
  exact h.1 exampleDay _ (by rw [h.2]; exact List.mem_singleton.mpr rfl)

/-- `classify_factor(v)`, nested in `transform_factors`. -/
def classify_factor (v : Option ℚ) : String :=
  match v with
  | none => "unknown"
  | some x =>
    if x ≤ 150 then "low"
    else if x ≤ 400 then "medium"
    else "high"

/-- C5: the classification boundaries are exactly as stated —
`classify_intensity` maps 100 to low, 100.01 and 200 to moderate,
200.01 and 300 to high, 300.01 to very high and null to unknown, and
`classify_factor` maps every value at most 150 to low, above 150 up to
400 to medium, above 400 to high and null to unknown. -/
theorem classification_boundaries :
    classify_intensity (some 100) = "low" ∧
    classify_intensity (some (10001 / 100)) = "moderate" ∧
    classify_intensity (some 200) = "moderate" ∧
    classify_intensity (some (20001 / 100)) = "high" ∧
    classify_intensity (some 300) = "high" ∧
    classify_intensity (some (30001 / 100)) = "very high" ∧
    classify_intensity none = "unknown" ∧
    (∀ v : ℚ, v ≤ 150 → classify_factor (some v) = "low") ∧
    (∀ v : ℚ, 150 < v → v ≤ 400 → classify_factor (some v) = "medium") ∧
    (∀ v : ℚ, 400 < v → classify_factor (some v) = "high") ∧
    classify_factor none = "unknown" := by
  refine ⟨by norm_num [classify_intensity], by norm_num [classify_intensity],
    by norm_num [classify_intensity], by norm_num [classify_intensity],
    by norm_num [classify_intensity], by norm_num [classify_intensity],
    rfl, ?_, ?_, ?_, rfl⟩
  · intro v h
    show (if v ≤ 150 then "low" else if v ≤ 400 then "medium" else "high")
      = "low"
    rw [if_pos h]
  · intro v h1 h2
    show (if v ≤ 150 then "low" else if v ≤ 400 then "medium" else "high")
      = "medium"
    rw [if_neg (not_le.mpr h1), if_pos h2]
  · intro v h
    show (if v ≤ 150 then "low" else if v ≤ 400 then "medium" else "high")
      = "high"
    rw [if_neg (not_le.mpr (lt_trans (by norm_num) h)),
      if_neg (not_le.mpr h)]

/-- Witness for C5 at the factor boundary values 150, 400 and 400.01. -/
theorem classification_boundaries_witness :
    classify_factor (some 150) = "low" ∧
    classify_factor (some 400) = "medium" ∧
    classify_factor (some (40001 / 100)) = "high" := by
  obtain ⟨-, -, -, -, -, -, -, hlow, hmed, hhigh, -⟩ :=
    classification_boundaries
  exact ⟨hlow 150 (by norm_num), hmed 400 (by norm_num) (by norm_num),
    hhigh (40001 / 100) (by norm_num)⟩

/-- C6: the unified metric falls back from actual to forecast — every
output row of `transform_intensity` has
`intensity_value = intensity_actual` when the actual is non-null and
`= intensity_forecast` otherwise; an input row with actual null and
forecast 42 yields `intensity_value = 42`, and one with both null yields
a null `intensity_value` classified as unknown. -/
theorem intensity_value_fallback :
    (∀ (df : List BRow) (s : SRow), s ∈ transform_intensity df →
      s.intensity_value = fillna s.intensity_actual s.intensity_forecast ∧
      s.intensity_level = classify_intensity s.intensity_value) ∧
    transform_intensity [⟨some 0, some 30, none, some 42⟩] =
      [⟨some 0, some 30, none, some 42, some 42, "low"⟩] ∧
    transform_intensity [⟨some 0, some 30, none, none⟩] =
      [⟨some 0, some 30, none, none, none, "unknown"⟩] := by
  refine ⟨?_, by decide, by decide⟩
  intro df s hs
  unfold transform_intensity at hs
  rcases Decidable.em (df = []) with hdf | hdf
  · rw [if_pos hdf] at hs
    exact absurd hs (List.not_mem_nil _)
  · rw [if_neg hdf] at hs
    obtain ⟨r, _, rfl⟩ := List.mem_map.mp hs
    exact ⟨rfl, rfl⟩

/-- Witness for C6 at a one-row frame with a null actual. -/
theorem intensity_value_fallback_witness :
    (SRow.mk (some 0) (some 30) none (some 42) (some 42)
        "low").intensity_value =
      fillna none (some 42) := by
  have h := intensity_value_fallback
  exact (h.1 [⟨some 0, some 30, none, some 42⟩] _
    (by rw [h.2.1]; exact List.mem_singleton.mpr rfl)).1

/-! ## Factor frames (tp1 `normalize_factors`, tp2 `transform_factors`) -/

/-- A DataFrame cell of the factors table: a number, a string, or
null/NaN. -/
inductive Cell : Type
  | num (q : ℚ)
  | str (s : String)
  | null
deriving DecidableEq, Repr

/-- One factors row: an association of column names to cells. -/
abbrev FRow : Type := List (String × Cell)

/-- Parse a non-empty run of decimal digits (helper for `to_numeric`). -/
def parseDigits (cs : List Char) : Option ℕ :=
  if cs = [] then none
  else
    cs.foldl
      (fun acc c =>
        match acc with
        | none => none
        | some n => if c.isDigit then some (10 * n + (c.toNat - 48)) else none)
      (some 0)

/-- Parse an optionally signed decimal numeral — a model of the numeric
strings accepted by `pd.to_numeric`. -/
def parseRat (s : String) : Option ℚ :=
  let (sign, cs) :=
    match s.data with
    | '-' :: r => ((-1 : ℚ), r)
    | '+' :: r => ((1 : ℚ), r)
    | r => ((1 : ℚ), r)
  let intPart := cs.takeWhile (· ≠ '.')
  match cs.dropWhile (· ≠ '.') with
  | [] => (parseDigits intPart).map fun n => sign * n
  | _ :: fracPart =>
    match parseDigits intPart, parseDigits fracPart with
    | some n, some f =>
      some (sign * ((n : ℚ) + (f : ℚ) / (10 : ℚ) ^ fracPart.length))
    | _, _ => none

/-- `pd.to_numeric(col, errors="coerce")` on one cell: numbers pass
through, null stays null, strings parse as numerals or coerce to NaN. -/
def to_numeric : Cell → Cell
  | .num q => .num q
  | .null => .null
  | .str s =>
    match parseRat s with
    | some q => .num q
    | none => .null

/-- `c.lower().strip()`, the column rename of both factor pipelines. -/
def lowerStrip (c : String) : String :=
  c.toLower.trim

/-- Python's `needle in hay` substring test. -/
def strContains (hay needle : String) : Bool :=
  decide (needle.data <:+: hay.data)

/-- The numeric value of a cell, `none` when the cell is not a number
(what `pd.isna` sees after a numeric coercion). -/
def cellNum : Cell → Option ℚ
  | .num q => some q
  | _ => none

/-- `row[c]`: the cell of column `c` in a row (null when absent). -/
def getCol (row : FRow) (c : String) : Cell :=
  match row.find? (fun p => p.1 = c) with
  | some p => p.2
  | none => .null

/-- `normalize_factors(df)` from tp1: short-circuits an empty frame;
otherwise lowercases/strips every column name, coerces the columns whose
(renamed) name contains `"gco2"` to numeric, and stamps an
`ingestion_ts` column.  The stamp value is passed in as `ingestion_ts`
(the Python code reads the clock). -/
def normalize_factors (ingestion_ts : String) (df : List FRow) : List FRow :=
  if df = [] then []
  else
    df.map fun row =>
      (row.map fun p =>
        (lowerStrip p.1,
          if strContains (lowerStrip p.1) "gco2" then to_numeric p.2
          else p.2))
      ++ [("ingestion_ts", Cell.str ingestion_ts)]

/-- `run_full_factors()` from tp1 (fetch already performed: `fetched` is
the raw frame the API returned).  `prior` is the content of the factors
table before the run, `none` when the table does not exist yet;
`write_deltalake(..., mode="overwrite")` replaces the table
unconditionally with the normalized fetch, so `prior` is never read. -/
def run_full_factors (ingestion_ts : String) (fetched : List FRow)
    (_prior : Option (List FRow)) : List FRow :=
  normalize_factors ingestion_ts fetched

/-- `transform_factors(df)` from tp2: short-circuits an empty frame;
otherwise lowercases/strips column names, finds the first column whose
name contains `"gco2perkwh"` (skipping classification when none exists),
coerces it to numeric, sorts rows ascending by it (NaN last), and adds
the `factor_level` classification and a `processed_ts` stamp. -/
def transform_factors (processed_ts : String) (df : List FRow) : List FRow :=
  if df = [] then []
  else
    let renamed := df.map fun row => row.map fun p => (lowerStrip p.1, p.2)
    let cols :=
      match renamed with
      | [] => []
      | row :: _ => row.map Prod.fst
    match cols.filter (fun c => strContains c "gco2perkwh") with
    | [] =>
      renamed.map fun row => row ++ [("processed_ts", Cell.str processed_ts)]
    | fc :: _ =>
      let coerced := renamed.map fun row =>
        row.map fun p => if p.1 = fc then (p.1, to_numeric p.2) else p
      let le : Option ℚ → Option ℚ → Bool := fun a b =>
        match a, b with
        | _, none => true
        | none, some _ => false
        | some x, some y => x ≤ y
      let sorted := sortBy
        (fun r1 r2 => le (cellNum (getCol r1 fc)) (cellNum (getCol r2 fc)))
        coerced
      sorted.map fun row =>
        row ++
          [("factor_level",
              Cell.str (classify_factor (cellNum (getCol row fc)))),
            ("processed_ts", Cell.str processed_ts)]

/-! ## tp1_extraccion.py — fetch and retry -/

/-- `get_intensity_range(from_iso, to_iso)` after the HTTP call:
`respData` models `data.get("data", [])` on the parsed JSON body —
`none` is a malformed body with no `"data"` key, which degrades to the
empty list (`pd.json_normalize([])` is an empty frame). -/
def get_intensity_range (respData : Option (List BRow)) : List BRow :=
  respData.getD []

/-- `normalize_intensity(df)` from tp1: returns the frame unchanged when
empty; on a non-empty frame it coerces the `from`/`to` columns to
datetimes and the `intensity.*` columns to numerics — coercions the
typed row model `BRow` already expresses — and adds the `date_part` and
`ingestion_ts` bookkeeping columns, which no claim reads and which are
not modelled. -/
def normalize_intensity (df : List BRow) : List BRow :=
  if df = [] then [] else df

/-- The retry loop body of `call_api`: `fetch a` is the outcome of
attempt number `a` (`requests.get` + `raise_for_status` + `.json()`;
`Except.error` models a raised `RequestException`).  `remaining` counts
the attempts left after the current one; on the last attempt the outcome
is returned (or the error re-raised) as-is, otherwise a failure sleeps 2
seconds and moves to the next attempt.  The second component of the
result accumulates the seconds slept. -/
def call_api_go {E R : Type} (fetch : ℕ → Except E R) (attempt : ℕ) :
    ℕ → Except E R × ℕ
  | 0 => (fetch attempt, 0)
  | remaining + 1 =>
    match fetch attempt with
    | .ok r => (.ok r, 0)
    | .error _ =>
      let rest := call_api_go fetch (attempt + 1) remaining
      (rest.1, rest.2 + 2)

/-- `call_api(path, params, retries)`: attempts are numbered
`1, ..., retries` as in `range(1, retries + 1)`; meaningful for
`retries ≥ 1` (the default is 3). -/
def call_api {E R : Type} (fetch : ℕ → Except E R) (retries : ℕ) :
    Except E R × ℕ :=
  call_api_go fetch 1 (retries - 1)

/-! ## Claim theorems: C7, C8, C9 -/

/-- C7: the full-refresh factors run always overwrites the factors table
unconditionally — whatever the prior table state (absent, or holding any
rows), the table after the run is exactly the rows fetched and
normalized in that run. -/
theorem full_factors_always_overwrites (ingestion_ts : String)
    (fetched : List FRow) (prior prior2 : Option (List FRow)) :
    run_full_factors ingestion_ts fetched prior =
      normalize_factors ingestion_ts fetched ∧
    run_full_factors ingestion_ts fetched prior =
      run_full_factors ingestion_ts fetched prior2 :=
  ⟨rfl, rfl⟩

/-- C8: a malformed or empty API body degrades to an empty frame, and an
empty frame short-circuits every downstream step — normalization and
upsert are no-ops on it, and each silver transform maps it to an empty
output — with no error raised anywhere (every function is total). -/
theorem empty_input_degrades (ingestion_ts : String) :
    get_intensity_range none = [] ∧
    get_intensity_range (some []) = [] ∧
    normalize_intensity [] = [] ∧
    (∀ old : List Row, (old.map Row.key).Nodup →
      upsert_delta [] (some old) = old) ∧
    transform_intensity [] = [] ∧
    build_intensity_daily [] = [] ∧
    normalize_factors ingestion_ts [] = [] ∧
    transform_factors ingestion_ts [] = [] := by
  refine ⟨rfl, rfl, rfl, ?_, rfl, rfl, rfl, rfl⟩
  intro old h
  show dropDuplicatesBy Row.key (old ++ []) = old
  rw [List.append_nil]
  exact dropDuplicatesBy_eq_self Row.key old h

/-- Witness for C8 at a concrete two-row table. -/
theorem empty_input_degrades_witness :
    upsert_delta [] (some [⟨"a", 1⟩, ⟨"b", 2⟩]) = [⟨"a", 1⟩, ⟨"b", 2⟩] :=
  (empty_input_degrades "ts").2.2.2.1 [⟨"a", 1⟩, ⟨"b", 2⟩] (by decide)

theorem call_api_go_all_fail {E R : Type} (fetch : ℕ → Except E R) :
    ∀ (remaining attempt : ℕ),
      (∀ a, attempt ≤ a → a ≤ attempt + remaining → ∃ e, fetch a = .error e) →
      call_api_go fetch attempt remaining =
        (fetch (attempt + remaining), 2 * remaining) := by
  intro remaining
  induction remaining with
  | zero => intro attempt _; rfl
  | succ rem ih =>
    intro attempt h
    obtain ⟨e, he⟩ := h attempt (le_refl _) (by omega)
    rw [call_api_go, he]
    have hrest := ih (attempt + 1) fun a h1 h2 => h a (by omega) (by omega)
    rw [hrest]
    refine Prod.ext ?_ ?_
    · show fetch (attempt + 1 + rem) = fetch (attempt + (rem + 1))
      exact congrArg fetch (by omega)
    · show 2 * rem + 2 = 2 * (rem + 1)
      omega

theorem call_api_go_first_ok {E R : Type} (fetch : ℕ → Except E R) :
    ∀ (remaining attempt j : ℕ) (r : R),
      attempt ≤ j → j ≤ attempt + remaining → fetch j = .ok r →
      (∀ a, attempt ≤ a → a < j → ∃ e, fetch a = .error e) →
      call_api_go fetch attempt remaining = (.ok r, 2 * (j - attempt)) := by
  intro remaining
  induction remaining with
  | zero =>
    intro attempt j r h1 h2 hok _
    have hj : j = attempt := by omega
    subst hj
    show (fetch j, 0) = _
    rw [hok]
    refine Prod.ext rfl ?_
    show 0 = 2 * (j - j)
    omega
  | succ rem ih =>
    intro attempt j r h1 h2 hok hfail
    rcases Decidable.em (j = attempt) with hj | hj
    · subst hj
      rw [call_api_go, hok]
      refine Prod.ext rfl ?_
      show 0 = 2 * (j - j)
      omega
    · obtain ⟨e, he⟩ := hfail attempt (le_refl _) (by omega)
      rw [call_api_go, he]
      have hrest := ih (attempt + 1) j r (by omega) (by omega) hok
        fun a ha1 ha2 => hfail a (by omega) ha2
      rw [hrest]
      refine Prod.ext rfl ?_
      show 2 * (j - (attempt + 1)) + 2 = 2 * (j - attempt)
      omega

/-- C9: a transient fetch error is retried up to the fixed bound
`retries` of attempts, sleeping the fixed 2 seconds between consecutive
attempts; when every attempt fails the outcome is the error raised by
the final attempt (the stage fails — the error propagates), and when
some attempt succeeds first at attempt `j` the parsed response of that
attempt is returned. -/
theorem call_api_retry_semantics {E R : Type} (fetch : ℕ → Except E R)
    (retries : ℕ) (hr : 1 ≤ retries) :
    ((∀ a, 1 ≤ a → a ≤ retries → ∃ e, fetch a = .error e) →
      call_api fetch retries = (fetch retries, 2 * (retries - 1))) ∧
    (∀ j r, 1 ≤ j → j ≤ retries → fetch j = .ok r →
      (∀ a, 1 ≤ a → a < j → ∃ e, fetch a = .error e) →
      call_api fetch retries = (.ok r, 2 * (j - 1))) := by
  constructor
  · intro h
    unfold call_api
    rw [call_api_go_all_fail fetch (retries - 1) 1
      (fun a h1 h2 => h a h1 (by omega))]
    refine Prod.ext ?_ rfl
    show fetch (1 + (retries - 1)) = fetch retries
    exact congrArg fetch (by omega)
  · intro j r h1 h2 hok hfail
    unfold call_api
    exact call_api_go_first_ok fetch (retries - 1) 1 j r h1 (by omega) hok
      fun a ha1 ha2 => hfail a ha1 ha2

/-- Witness for C9 with the default bound of 3 attempts: a fetch that
always fails propagates the final error after sleeping 2 + 2 seconds; a
fetch that fails once and succeeds on attempt 2 returns the parsed
body. -/
theorem call_api_retry_semantics_witness :
    call_api (fun _ => (Except.error "boom" : Except String String)) 3 =
      (Except.error "boom", 4) ∧
    call_api
        (fun a =>
          if a = 2 then (Except.ok "body" : Except String String)
          else Except.error "boom") 3 =
      (Except.ok "body", 2) := by
  constructor
  · have h := (call_api_retry_semantics
      (fun _ => (Except.error "boom" : Except String String)) 3
      (by norm_num)).1 (fun a _ _ => ⟨"boom", rfl⟩)
    simpa using h
  · have h := (call_api_retry_semantics
      (fun a =>
        if a = 2 then (Except.ok "body" : Except String String)
        else Except.error "boom") 3 (by norm_num)).2 2 "body"
      (by norm_num) (by norm_num) (by norm_num)
      (by
        intro a ha1 ha2
        have ha : a = 1 := by omega
        subst ha
        exact ⟨"boom", rfl⟩)
    simpa using h

end CarbonIntensity
